import Mathlib

/-!
Verification of the extrinsic / signing-payload binary codec of the
`polkadot-ffi` crate (file `src/polkadot-ffi/src/extrinsic.rs`).

Bytes are modelled as `List Nat` (each element a byte value).  Machine
integers are modelled as `Nat` with explicit `% 2 ^ w` at the points where
the Rust source performs a narrowing cast or a wrapping operation.
Nullable FFI pointers are modelled as `Option (List Nat)` (`none` = null);
a raw-pointer read of a fixed size larger than the buffer the caller
provided has no defined result in the source and is modelled by a
distinguished `undefined` outcome.
-/

namespace Sublua

/-- Little-endian fixed-width byte serialisation: `toLEBytes w n` is the
`w`-byte little-endian representation of `n % 2 ^ (8 * w)`.  This is the
SCALE encoding of the fixed-width unsigned integer types (`u32` fields
`spec_version` and `transaction_version` use `w = 4`). -/
def toLEBytes : Nat → Nat → List Nat
  | 0, _ => []
  | w + 1, n => n % 256 :: toLEBytes w (n / 256)

/-- Number of bytes of the minimal little-endian representation of a
big-mode compact value, floored at 4: the `parity-scale-codec` big-integer
mode computes `bytes_needed = size_of::<T>() - value.leading_zeros() / 8`,
which for any value of at least `2 ^ 30` (the only values reaching that
mode) equals the least `k ≥ 4` with `n < 256 ^ k`. -/
def bigByteLen (n : Nat) : Nat :=
  if n < 2 ^ 32 then 4
  else if n < 2 ^ 40 then 5
  else if n < 2 ^ 48 then 6
  else if n < 2 ^ 56 then 7
  else if n < 2 ^ 64 then 8
  else if n < 2 ^ 72 then 9
  else if n < 2 ^ 80 then 10
  else if n < 2 ^ 88 then 11
  else if n < 2 ^ 96 then 12
  else if n < 2 ^ 104 then 13
  else if n < 2 ^ 112 then 14
  else if n < 2 ^ 120 then 15
  else 16

/-- SCALE compact encoding of an unsigned integer, as implemented by
`parity-scale-codec` (`Compact<u32>` / `Compact<u128>`, used in the source
for the outer length prefix, the nonce and the tip):
single-byte mode for values below `2 ^ 6`, two-byte mode below `2 ^ 14`,
four-byte mode below `2 ^ 30`, and big-integer mode (one mode byte holding
`byte_length - 4` in its upper six bits, then the minimal little-endian
bytes of the value) above. -/
def encodeCompact (n : Nat) : List Nat :=
  if n < 2 ^ 6 then [n * 4]
  else if n < 2 ^ 14 then toLEBytes 2 (n * 4 + 1)
  else if n < 2 ^ 30 then toLEBytes 4 (n * 4 + 2)
  else ((bigByteLen n - 4) * 4 + 3) :: toLEBytes (bigByteLen n) n

/-- The `Era` enum of `extrinsic.rs` (mortality union). -/
inductive Era
  | Immortal : Era
  | Mortal (period phase : Nat) : Era

/-- Derived SCALE encoding of `Era`: discriminant byte by declaration
order, then the variant payload (`Immortal` has none, `Mortal` carries the
two `u8` fields `period` and `phase`). -/
def Era.encode : Era → List Nat
  | .Immortal => [0]
  | .Mortal period phase => [1, period, phase]

/-- The `Call` struct of `extrinsic.rs`: module index, function index and
the opaque pre-encoded argument bytes. -/
structure Call where
  module_index : Nat
  function_index : Nat
  arguments : List Nat

/-- Derived SCALE encoding of `Call`: the two index bytes followed by the
encoding of the field `arguments : Vec<u8>`, which SCALE serialises as a
compact length prefix followed by the raw bytes. -/
def Call.encode (c : Call) : List Nat :=
  c.module_index :: c.function_index ::
    (encodeCompact c.arguments.length ++ c.arguments)

/-- The `MultiAddress` enum of `extrinsic.rs` (addressing union). -/
inductive MultiAddress
  | Id (account : List Nat)
  | Index (i : Nat)
  | Raw (bytes : List Nat)
  | Address32 (account : List Nat)
  | Address20 (account : List Nat)

/-- Derived SCALE encoding of `MultiAddress`: discriminant byte by
declaration order, then the variant payload. -/
def MultiAddress.encode : MultiAddress → List Nat
  | .Id account => 0 :: account
  | .Index i => 1 :: encodeCompact i
  | .Raw bytes => 2 :: (encodeCompact bytes.length ++ bytes)
  | .Address32 account => 3 :: account
  | .Address20 account => 4 :: account

/-- The `MultiSignature` enum of `extrinsic.rs` (signature union). -/
inductive MultiSignature
  | Ed25519 (sig : List Nat)
  | Sr25519 (sig : List Nat)
  | Ecdsa (sig : List Nat)

/-- Derived SCALE encoding of `MultiSignature`: discriminant byte by
declaration order, then the raw signature bytes. -/
def MultiSignature.encode : MultiSignature → List Nat
  | .Ed25519 sig => 0 :: sig
  | .Sr25519 sig => 1 :: sig
  | .Ecdsa sig => 2 :: sig

/-- The `ExtrinsicSignature` struct of `extrinsic.rs`. -/
structure ExtrinsicSignature where
  signer : MultiAddress
  signature : MultiSignature
  era : Era
  nonce : Nat
  tip : Nat

/-- Derived SCALE encoding of `ExtrinsicSignature`: concatenation of the
field encodings in declaration order (nonce and tip are `Compact`). -/
def ExtrinsicSignature.encode (s : ExtrinsicSignature) : List Nat :=
  s.signer.encode ++ s.signature.encode ++ s.era.encode ++
    encodeCompact s.nonce ++ encodeCompact s.tip

/-! ### BLAKE2b-256

`make_signing_payload` hashes an oversized payload with
`sp_core::blake2_256`, i.e. BLAKE2b (RFC 7693) with no key and a 32-byte
digest.  The hash is embedded here in full; 64-bit words are `Nat` values
kept below `2 ^ 64` by explicit reductions. -/

/-- Little-endian value of a byte list. -/
def leVal : List Nat → Nat
  | [] => 0
  | b :: rest => b + 256 * leVal rest

/-- Right rotation of a 64-bit word (input assumed below `2 ^ 64`):
the low `r` bits move to the top. -/
def rotr64 (x r : Nat) : Nat :=
  x / 2 ^ r + x % 2 ^ r * 2 ^ (64 - r)

/-- The BLAKE2b initialisation vector (RFC 7693, section 2.6). -/
def blakeIV : List Nat :=
  [0x6a09e667f3bcc908, 0xbb67ae8584caa73b,
   0x3c6ef372fe94f82b, 0xa54ff53a5f1d36f1,
   0x510e527fade682d1, 0x9b05688c2b3e6c1f,
   0x1f83d9abfb41bd6b, 0x5be0cd19137e2179]

/-- The BLAKE2 message-schedule permutations (RFC 7693, section 2.7). -/
def blakeSigma : List (List Nat) :=
  [[0, 1, 2, 3, 4, 5, 6, 7, 8, 9, 10, 11, 12, 13, 14, 15],
   [14, 10, 4, 8, 9, 15, 13, 6, 1, 12, 0, 2, 11, 7, 5, 3],
   [11, 8, 12, 0, 5, 2, 15, 13, 10, 14, 3, 6, 7, 1, 9, 4],
   [7, 9, 3, 1, 13, 12, 11, 14, 2, 6, 5, 10, 4, 0, 15, 8],
   [9, 0, 5, 7, 2, 4, 10, 15, 14, 1, 11, 12, 6, 8, 3, 13],
   [2, 12, 6, 10, 0, 11, 8, 3, 4, 13, 7, 5, 15, 14, 1, 9],
   [12, 5, 1, 15, 14, 13, 4, 10, 0, 7, 6, 3, 9, 2, 8, 11],
   [13, 11, 7, 14, 12, 1, 3, 9, 5, 0, 15, 4, 8, 6, 2, 10],
   [6, 15, 14, 9, 11, 3, 0, 8, 12, 2, 13, 7, 1, 4, 10, 5],
   [10, 2, 8, 4, 7, 6, 1, 5, 15, 11, 9, 14, 3, 12, 13, 0]]

/-- Entry `i` of row `r mod 10` of the BLAKE2 permutation table. -/
def sigAt (r i : Nat) : Nat :=
  (blakeSigma.getD (r % 10) []).getD i 0

/-- The BLAKE2b mixing function G (RFC 7693, section 3.1), updating the
16-word work vector at indices `a`, `b`, `c`, `d` with message words
`x`, `y`. -/
def blakeG (v : List Nat) (a b c d x y : Nat) : List Nat :=
  let va := (v.getD a 0 + v.getD b 0 + x) % 2 ^ 64
  let vd := rotr64 (Nat.xor (v.getD d 0) va) 32
  let vc := (v.getD c 0 + vd) % 2 ^ 64
  let vb := rotr64 (Nat.xor (v.getD b 0) vc) 24
  let va2 := (va + vb + y) % 2 ^ 64
  let vd2 := rotr64 (Nat.xor vd va2) 16
  let vc2 := (vc + vd2) % 2 ^ 64
  let vb2 := rotr64 (Nat.xor vb vc2) 63
  (((v.set a va2).set b vb2).set c vc2).set d vd2

/-- One round of the BLAKE2b compression function: eight G applications
with the message words selected by permutation row `r mod 10`. -/
def blakeRound (m : Nat → Nat) (v : List Nat) (r : Nat) : List Nat :=
  let s := sigAt r
  let v1 := blakeG v 0 4 8 12 (m (s 0)) (m (s 1))
  let v2 := blakeG v1 1 5 9 13 (m (s 2)) (m (s 3))
  let v3 := blakeG v2 2 6 10 14 (m (s 4)) (m (s 5))
  let v4 := blakeG v3 3 7 11 15 (m (s 6)) (m (s 7))
  let v5 := blakeG v4 0 5 10 15 (m (s 8)) (m (s 9))
  let v6 := blakeG v5 1 6 11 12 (m (s 10)) (m (s 11))
  let v7 := blakeG v6 2 7 8 13 (m (s 12)) (m (s 13))
  blakeG v7 3 4 9 14 (m (s 14)) (m (s 15))

/-- Message word `i` of a 128-byte block: bytes `8 i .. 8 i + 7`,
little-endian. -/
def blockWords (block : List Nat) : Nat → Nat :=
  fun i => leVal ((block.drop (8 * i)).take 8)

/-- The BLAKE2b compression function F (RFC 7693, section 3.2) with the
byte counter `t` (split into two 64-bit words) and the final-block flag.
The state `h` is the list of the eight 64-bit state words. -/
def blakeCompress (h : List Nat) (m : Nat → Nat) (t : Nat)
    (last : Bool) : List Nat :=
  let v0 := h ++ blakeIV
  let v1 := v0.set 12 (Nat.xor (v0.getD 12 0) (t % 2 ^ 64))
  let v2 := v1.set 13 (Nat.xor (v1.getD 13 0) (t / 2 ^ 64 % 2 ^ 64))
  let v3 :=
    if last then v2.set 14 (Nat.xor (v2.getD 14 0) (2 ^ 64 - 1)) else v2
  let vf := (List.range 12).foldl (blakeRound m) v3
  (List.range 8).map (fun i =>
    Nat.xor (h.getD i 0) (Nat.xor (vf.getD i 0) (vf.getD (i + 8) 0)))

/-- Zero-pad a block to 128 bytes. -/
def padTo128 (block : List Nat) : List Nat :=
  block ++ List.replicate (128 - block.length) 0

/-- Block loop of BLAKE2b: every full 128-byte block except the last is
compressed with the running byte counter and `last = false`; the final
(possibly short, possibly empty) block is zero-padded and compressed with
the total byte count and `last = true`.  The fuel argument dominates the
number of 128-byte steps. -/
def blakeLoop (fuel : Nat) (h : List Nat) (t : Nat)
    (msg : List Nat) : List Nat :=
  match fuel with
  | 0 => h
  | fuel + 1 =>
    if msg.length ≤ 128 then
      blakeCompress h (blockWords (padTo128 msg)) (t + msg.length) true
    else
      blakeLoop fuel
        (blakeCompress h (blockWords (msg.take 128)) (t + 128) false)
        (t + 128) (msg.drop 128)

/-- BLAKE2b with 32-byte digest and no key (`sp_core::blake2_256`): the
parameter word `0x01010020` (digest length 32, fanout 1, depth 1) is mixed
into the first IV word; the digest is the little-endian serialisation of
the first four state words. -/
def blake2_256 (msg : List Nat) : List Nat :=
  let h0 := blakeIV.set 0 (Nat.xor (blakeIV.getD 0 0) 0x01010020)
  let hf := blakeLoop (msg.length + 1) h0 0 msg
  toLEBytes 8 (hf.getD 0 0) ++ toLEBytes 8 (hf.getD 1 0) ++
    toLEBytes 8 (hf.getD 2 0) ++ toLEBytes 8 (hf.getD 3 0)

/-- The tip reconstruction of `extrinsic.rs` lines 147 and 261:
`((tip_high as u128) << 64) | (tip_low as u128)`, with `u128` wrapping on
the shift made explicit. -/
def combineTip (tip_high tip_low : Nat) : Nat :=
  ((tip_high <<< 64) % 2 ^ 128) ||| tip_low

/-- Era construction of `extrinsic.rs` (lines 140-144 and 254-258): the
boolean `era_mortal` selects `Mortal(era_period, era_phase)`, otherwise
`Immortal`. -/
def mkEra (era_mortal : Bool) (era_period era_phase : Nat) : Era :=
  if era_mortal then .Mortal era_period era_phase else .Immortal

/-- Body of `encode_unsigned_extrinsic` (lines 67-80): call bytes are the
two index bytes followed by the raw argument slice; the extrinsic bytes
prepend the version byte `0x04`; the output prepends the compact encoding
of `extrinsic_bytes.len() as u32` (a narrowing cast, hence `% 2 ^ 32`). -/
def encodeUnsignedCore (module_index function_index : Nat)
    (arguments : List Nat) : List Nat :=
  let call_bytes := module_index :: function_index :: arguments
  let extrinsic_bytes := 0x04 :: call_bytes
  encodeCompact (extrinsic_bytes.length % 2 ^ 32) ++ extrinsic_bytes

/-- Body of `encode_signed_extrinsic` (lines 132-176): the version byte
`0x84`, the derived encoding of the `ExtrinsicSignature` value built from
the `Id` signer, the `Sr25519` signature, the era, the compact nonce and
the compact tip, then the manually pushed module and function index bytes
and the raw argument slice (no length prefix on the arguments); the output
prepends the compact encoding of `final_tx.len() as u32`. -/
def encodeSignedCore (module_index function_index : Nat)
    (arguments signer_array signature_array : List Nat)
    (nonce tip : Nat) (era : Era) : List Nat :=
  let signature_payload : ExtrinsicSignature :=
    ⟨.Id signer_array, .Sr25519 signature_array, era, nonce, tip⟩
  let final_tx :=
    0x84 :: (signature_payload.encode ++
      (module_index :: function_index :: arguments))
  encodeCompact (final_tx.length % 2 ^ 32) ++ final_tx

/-- The tuple encoding of `make_signing_payload` lines 262-272: derived
SCALE encoding of
`(call, era, Compact(nonce), Compact(tip), spec_version,
transaction_version, genesis_arr, block_arr)`, i.e. the concatenation of
the component encodings.  Note that `Call.encode` length-prefixes the
argument bytes. -/
def signingPayloadConcat (module_index function_index : Nat)
    (arguments : List Nat) (nonce tip : Nat) (era : Era)
    (spec_version transaction_version : Nat)
    (genesis_arr block_arr : List Nat) : List Nat :=
  (Call.mk module_index function_index arguments).encode ++
    era.encode ++ encodeCompact nonce ++ encodeCompact tip ++
    toLEBytes 4 spec_version ++ toLEBytes 4 transaction_version ++
    genesis_arr ++ block_arr

/-- Body of `make_signing_payload` (lines 246-275): the tuple encoding,
replaced by its `blake2_256` digest when it is longer than 256 bytes. -/
def makeSigningPayloadCore (module_index function_index : Nat)
    (arguments : List Nat) (nonce tip : Nat) (era : Era)
    (spec_version transaction_version : Nat)
    (genesis_arr block_arr : List Nat) : List Nat :=
  let payload := signingPayloadConcat module_index function_index
    arguments nonce tip era spec_version transaction_version
    genesis_arr block_arr
  if payload.length > 256 then blake2_256 payload else payload

/-! ### FFI boundary

The three exported functions take raw pointers, return an `i32` status
code (0 = success, 1 = failure) and write the produced buffer through the
`out_ptr` / `out_len` out-parameters only on success.  A nullable pointer
together with the bytes of the buffer it addresses is modelled as
`Option (List Nat)` (`none` = null).  The source reads the signer, the
signature and the two hashes with `slice::from_raw_parts(ptr, k)` for a
fixed `k` and no length parameter: when the caller's buffer holds fewer
than `k` bytes that read is out of bounds and the source has no defined
result, modelled by the `undefined` outcome. -/

/-- Outcome of an FFI call: either undefined behaviour (an out-of-bounds
fixed-size read) or a status code together with the buffer written through
the out-parameters (`none` = the out-parameters were left unwritten). -/
inductive FFIOutcome
  | undefined : FFIOutcome
  | ret (code : Int) (out : Option (List Nat)) : FFIOutcome
deriving DecidableEq

/-- Fixed-size pointer read, `slice::from_raw_parts(ptr, k)`: defined and
equal to the first `k` bytes when the buffer holds at least `k` bytes,
out of bounds otherwise. -/
def readFixed (k : Nat) (buf : List Nat) : Option (List Nat) :=
  if k ≤ buf.length then some (buf.take k) else none

/-- The exported `encode_unsigned_extrinsic` (lines 51-98): null checks
on the argument and out pointers, then the body; the status code is 0
exactly on the `Ok` path, and the out-parameters are written only there. -/
def encode_unsigned_extrinsic (module_index function_index : Nat)
    (arguments : Option (List Nat))
    (out_ptr_null out_len_null : Bool) : FFIOutcome :=
  match arguments with
  | none => .ret 1 none
  | some args =>
    if out_ptr_null || out_len_null then .ret 1 none
    else .ret 0 (some (encodeUnsignedCore module_index function_index args))

/-- The exported `encode_signed_extrinsic` (lines 100-194): null checks,
then fixed-size reads of 32 signer bytes and 64 signature bytes (no
length parameter exists for either), then the body. -/
def encode_signed_extrinsic (module_index function_index : Nat)
    (arguments signer_buf signature_buf : Option (List Nat))
    (nonce tip_low tip_high : Nat)
    (era_mortal : Bool) (era_period era_phase : Nat)
    (out_ptr_null out_len_null : Bool) : FFIOutcome :=
  match arguments, signer_buf, signature_buf with
  | some args, some sbuf, some gbuf =>
    if out_ptr_null || out_len_null then .ret 1 none
    else
      match readFixed 32 sbuf, readFixed 64 gbuf with
      | some signer_array, some signature_array =>
        .ret 0 (some (encodeSignedCore module_index function_index args
          signer_array signature_array nonce
          (combineTip tip_high tip_low)
          (mkEra era_mortal era_period era_phase)))
      | _, _ => .undefined
  | _, _, _ => .ret 1 none

/-- The exported `make_signing_payload` (lines 206-292): null checks,
fixed-size reads of the two 32-byte hashes (no length parameter exists
for either), then the body.  The derived SCALE encoding of
`arguments : Vec<u8>` aborts with a caught panic when the vector has more
than `u32::MAX` elements, which the `catch_unwind` wrapper turns into
status 1 with nothing written. -/
def make_signing_payload (module_index function_index : Nat)
    (arguments : Option (List Nat)) (nonce tip_low tip_high : Nat)
    (era_mortal : Bool) (era_period era_phase : Nat)
    (spec_version transaction_version : Nat)
    (genesis_buf block_buf : Option (List Nat))
    (out_ptr_null out_len_null : Bool) : FFIOutcome :=
  match arguments, genesis_buf, block_buf with
  | some args, some gbuf, some bbuf =>
    if out_ptr_null || out_len_null then .ret 1 none
    else
      match readFixed 32 gbuf, readFixed 32 bbuf with
      | some genesis_arr, some block_arr =>
        if args.length < 2 ^ 32 then
          .ret 0 (some (makeSigningPayloadCore module_index function_index
            args nonce (combineTip tip_high tip_low)
            (mkEra era_mortal era_period era_phase)
            spec_version transaction_version genesis_arr block_arr))
        else .ret 1 none
      | _, _ => .undefined
  | _, _, _ => .ret 1 none

/-! ### Helper lemmas -/

@[simp]
theorem toLEBytes_length (w n : Nat) : (toLEBytes w n).length = w := by
  induction w generalizing n with
  | zero => rfl
  | succ w ih => simp [toLEBytes, ih]

theorem blake2_256_length (msg : List Nat) : (blake2_256 msg).length = 32 := by
  simp [blake2_256]

/-- Flattening of the unsigned-extrinsic builder. -/
theorem encodeUnsignedCore_eq (m f : Nat) (args : List Nat) :
    encodeUnsignedCore m f args =
      encodeCompact ((args.length + 3) % 2 ^ 32) ++ 0x04 :: m :: f :: args := by
  simp [encodeUnsignedCore]

/-- Flattening of the signed-extrinsic builder. -/
theorem encodeSignedCore_eq (m f : Nat)
    (args signer sig : List Nat) (nonce tip : Nat) (era : Era) :
    encodeSignedCore m f args signer sig nonce tip era =
      encodeCompact ((signer.length + sig.length + (Era.encode era).length +
          (encodeCompact nonce).length + (encodeCompact tip).length +
          args.length + 5) % 2 ^ 32) ++
        0x84 :: ((0 :: signer) ++ (1 :: sig) ++ Era.encode era ++
          encodeCompact nonce ++ encodeCompact tip ++ (m :: f :: args)) := by
  simp [encodeSignedCore, ExtrinsicSignature.encode, MultiAddress.encode,
    MultiSignature.encode]
  congr 1
  omega

/-! ### Claim theorems -/

/-- Claim C1.  The signing-payload concatenation does NOT place the raw
argument bytes directly after the call index byte: the derived SCALE
encoding of the field `arguments : Vec<u8>` of `Call` inserts the compact
encoding of the argument count between the call index byte and the
argument bytes.  At pallet 5, call 1, empty arguments, nonce 0, tip 0,
immortal era, zero versions and zero hashes the concatenation carries an
extra `0x00` byte (compact encoding of the argument count 0) at position
2, and differs from the layout the claim states.  This also contradicts
the manual call encoding of `encode_signed_extrinsic`, which appends the
argument bytes with no length prefix. -/
theorem payload_call_has_args_count_C1 :
    signingPayloadConcat 5 1 [] 0 0 .Immortal 0 0
        (List.replicate 32 0) (List.replicate 32 0) =
      [5, 1, 0] ++ [0] ++ [0] ++ [0] ++ toLEBytes 4 0 ++ toLEBytes 4 0 ++
        List.replicate 32 0 ++ List.replicate 32 0 ∧
    signingPayloadConcat 5 1 [] 0 0 .Immortal 0 0
        (List.replicate 32 0) (List.replicate 32 0) ≠
      [5, 1] ++ [0] ++ [0] ++ [0] ++ toLEBytes 4 0 ++ toLEBytes 4 0 ++
        List.replicate 32 0 ++ List.replicate 32 0 := by
  decide

/-- Claim C3 (amended).  The unsigned extrinsic is the byte `0x04`, the
pallet index byte, the call index byte and the raw argument bytes,
prefixed by the compact encoding of the body's byte length reduced modulo
`2 ^ 32` (the source computes the prefix from `len as u32`); at pallet 5,
call 1 and empty arguments the output is exactly `[12, 4, 5, 1]` with
`12` the compact encoding of the value 3. -/
theorem unsigned_extrinsic_layout_C3 :
    (∀ (m f : Nat) (args : List Nat),
      encodeUnsignedCore m f args =
        encodeCompact ((args.length + 3) % 2 ^ 32) ++ 0x04 :: m :: f :: args) ∧
    encodeUnsignedCore 5 1 [] = [12, 4, 5, 1] ∧
    encodeCompact 3 = [12] := by
  refine ⟨encodeUnsignedCore_eq, by decide, by decide⟩

/-- Claim C3, counterexample to the claim as stated: with `2 ^ 32`
argument bytes the body's byte length is `2 ^ 32 + 3`, but the emitted
prefix is the compact encoding of `(2 ^ 32 + 3) % 2 ^ 32 = 3` (one byte
`12`), not the compact encoding of the body's byte length (six bytes
starting with `7`). -/
theorem unsigned_extrinsic_huge_args_C3 :
    encodeUnsignedCore 5 1 (List.replicate (2 ^ 32) 0) ≠
      encodeCompact (0x04 :: 5 :: 1 :: List.replicate (2 ^ 32) 0).length ++
        (0x04 :: 5 :: 1 :: List.replicate (2 ^ 32) 0) := by
  intro h
  rw [encodeUnsignedCore_eq] at h
  have hlen : (0x04 :: 5 :: 1 :: List.replicate (2 ^ 32) 0 :
      List Nat).length = 2 ^ 32 + 3 := by
    rw [List.length_cons, List.length_cons, List.length_cons,
      List.length_replicate]
  have hrep : (List.replicate (2 ^ 32) (0 : Nat)).length + 3 = 2 ^ 32 + 3 := by
    rw [List.length_replicate]
  rw [hlen, hrep] at h
  have hmod : (2 ^ 32 + 3) % 2 ^ 32 = 3 := by norm_num
  rw [hmod] at h
  have e1 : encodeCompact 3 = [12] := by decide
  have e2 : encodeCompact (2 ^ 32 + 3) = [7, 3, 0, 0, 0, 1] := by decide
  rw [e1, e2] at h
  have h1 := congrArg List.head? h
  simp only [List.cons_append, List.head?_cons, Option.some.injEq] at h1
  exact absurd h1 (by decide)

/-- Claim C2 (amended).  For a 32-byte signer and a 64-byte signature the
signed extrinsic body is the byte `0x84`, the addressing union
(discriminant `0x00` then the signer bytes), the signature union (the
Sr25519 discriminant `0x01` then the signature bytes), the mortality
bytes, the compact nonce, the compact tip, the pallet and call index
bytes and the raw argument bytes; the body is prefixed by the compact
encoding of its byte length reduced modulo `2 ^ 32` (the source computes
the prefix from `len as u32`). -/
theorem signed_extrinsic_layout_C2 :
    ∀ (m f : Nat) (args signer sig : List Nat) (nonce tip : Nat) (era : Era),
      signer.length = 32 → sig.length = 64 →
      encodeSignedCore m f args signer sig nonce tip era =
        encodeCompact ((101 + (Era.encode era).length +
            (encodeCompact nonce).length + (encodeCompact tip).length +
            args.length) % 2 ^ 32) ++
          0x84 :: ((0 :: signer) ++ (1 :: sig) ++ Era.encode era ++
            encodeCompact nonce ++ encodeCompact tip ++ (m :: f :: args)) := by
  intro m f args signer sig nonce tip era hs hg
  rw [encodeSignedCore_eq, hs, hg]
  congr 3
  omega

/-- Claim C2, witness: the layout theorem applied at pallet 5, call 1,
argument byte 9, an all-ones signer, an all-twos signature, nonce 7,
tip 0 and the immortal era. -/
theorem signed_extrinsic_layout_C2_witness :
    encodeSignedCore 5 1 [9] (List.replicate 32 1) (List.replicate 64 2)
        7 0 .Immortal =
      encodeCompact ((101 + (Era.encode .Immortal).length +
          (encodeCompact 7).length + (encodeCompact 0).length +
          ([9] : List Nat).length) % 2 ^ 32) ++
        0x84 :: ((0 :: List.replicate 32 1) ++ (1 :: List.replicate 64 2) ++
          Era.encode .Immortal ++ encodeCompact 7 ++ encodeCompact 0 ++
          (5 :: 1 :: [9])) :=
  signed_extrinsic_layout_C2 5 1 [9] (List.replicate 32 1)
    (List.replicate 64 2) 7 0 .Immortal (by decide) (by decide)

/-- Claim C2, counterexample to the claim as stated: with `2 ^ 32`
argument bytes the body's byte length is `2 ^ 32 + 104`, but the emitted
prefix is the compact encoding of `(2 ^ 32 + 104) % 2 ^ 32 = 104` (two
bytes starting with `161`), not the compact encoding of the body's byte
length (six bytes starting with `7`). -/
theorem signed_extrinsic_huge_args_C2 :
    encodeSignedCore 0 0 (List.replicate (2 ^ 32) 0)
        (List.replicate 32 1) (List.replicate 64 2) 0 0 .Immortal ≠
      encodeCompact (0x84 :: ((0 :: List.replicate 32 1) ++
            (1 :: List.replicate 64 2) ++ Era.encode .Immortal ++
            encodeCompact 0 ++ encodeCompact 0 ++
            (0 :: 0 :: List.replicate (2 ^ 32) 0)) : List Nat).length ++
        0x84 :: ((0 :: List.replicate 32 1) ++
          (1 :: List.replicate 64 2) ++ Era.encode .Immortal ++
          encodeCompact 0 ++ encodeCompact 0 ++
          (0 :: 0 :: List.replicate (2 ^ 32) 0)) := by
  intro h
  rw [encodeSignedCore_eq] at h
  have hlen : (0x84 :: ((0 :: List.replicate 32 1) ++
      (1 :: List.replicate 64 2) ++ Era.encode .Immortal ++
      encodeCompact 0 ++ encodeCompact 0 ++
      (0 :: 0 :: List.replicate (2 ^ 32) 0)) : List Nat).length =
      2 ^ 32 + 104 := by
    have hera : (Era.encode .Immortal).length = 1 := rfl
    have hc0 : (encodeCompact 0).length = 1 := rfl
    rw [List.length_cons, List.length_append, List.length_append,
      List.length_append, List.length_append, List.length_append,
      List.length_cons, List.length_cons, List.length_cons,
      List.length_cons, List.length_replicate, List.length_replicate,
      List.length_replicate]
    simp only [hera, hc0]
    norm_num
  have harg : (List.replicate 32 (1 : Nat)).length +
      (List.replicate 64 (2 : Nat)).length +
      (Era.encode .Immortal).length + (encodeCompact 0).length +
      (encodeCompact 0).length +
      (List.replicate (2 ^ 32) (0 : Nat)).length + 5 = 2 ^ 32 + 104 := by
    have hera : (Era.encode .Immortal).length = 1 := rfl
    have hc0 : (encodeCompact 0).length = 1 := rfl
    rw [List.length_replicate, List.length_replicate, List.length_replicate]
    simp only [hera, hc0]
    norm_num
  rw [hlen, harg] at h
  have hmod : (2 ^ 32 + 104) % 2 ^ 32 = 104 := by norm_num
  rw [hmod] at h
  have e1 : encodeCompact 104 = [161, 1] := by decide
  have e2 : encodeCompact (2 ^ 32 + 104) = [7, 104, 0, 0, 0, 1] := by decide
  rw [e1, e2] at h
  have h1 := congrArg List.head? h
  simp only [List.cons_append, List.head?_cons, Option.some.injEq] at h1
  exact absurd h1 (by decide)

/-- Claim C4.  The signing payload equals the tuple concatenation when
that concatenation is at most 256 bytes long, and equals its 32-byte
BLAKE2b-256 digest when the concatenation is longer than 256 bytes; the
choice depends only on the concatenated length. -/
theorem signing_payload_digest_fallback_C4 :
    ∀ (m f : Nat) (args : List Nat) (nonce tip : Nat) (era : Era)
      (sv tv : Nat) (g b : List Nat),
      ((signingPayloadConcat m f args nonce tip era sv tv g b).length > 256 →
        makeSigningPayloadCore m f args nonce tip era sv tv g b =
          blake2_256 (signingPayloadConcat m f args nonce tip era sv tv g b) ∧
        (makeSigningPayloadCore m f args nonce tip era sv tv g b).length = 32) ∧
      ((signingPayloadConcat m f args nonce tip era sv tv g b).length ≤ 256 →
        makeSigningPayloadCore m f args nonce tip era sv tv g b =
          signingPayloadConcat m f args nonce tip era sv tv g b) := by
  intro m f args nonce tip era sv tv g b
  constructor
  · intro hgt
    rw [makeSigningPayloadCore, if_pos hgt]
    exact ⟨rfl, blake2_256_length _⟩
  · intro hle
    rw [makeSigningPayloadCore, if_neg (by omega)]

set_option maxRecDepth 100000 in
/-- Claim C4, witness: with 256 argument bytes the concatenation is 335
bytes long and the output is the 32-byte digest; with no argument bytes
the concatenation is 78 bytes long and is returned unchanged. -/
theorem signing_payload_digest_fallback_C4_witness :
    (makeSigningPayloadCore 0 0 (List.replicate 256 0) 0 0 .Immortal 0 0
        (List.replicate 32 0) (List.replicate 32 0)).length = 32 ∧
    makeSigningPayloadCore 0 0 [] 0 0 .Immortal 0 0
        (List.replicate 32 0) (List.replicate 32 0) =
      signingPayloadConcat 0 0 [] 0 0 .Immortal 0 0
        (List.replicate 32 0) (List.replicate 32 0) :=
  ⟨((signing_payload_digest_fallback_C4 0 0 (List.replicate 256 0) 0 0
      .Immortal 0 0 (List.replicate 32 0) (List.replicate 32 0)).1
      (by decide)).2,
   (signing_payload_digest_fallback_C4 0 0 [] 0 0 .Immortal 0 0
      (List.replicate 32 0) (List.replicate 32 0)).2 (by decide)⟩

/-- Claim C7.  Mode boundaries of the compact integer encoding used for
the length prefix, the nonce and the tip: 63 encodes to one byte with low
two bits `00`; 64 encodes to two bytes whose first byte has low two bits
`01`; 16383 encodes to two bytes; 16384 encodes to four bytes whose first
byte has low two bits `10`.  The last conjunct exhibits the encoding in
its length-prefix role. -/
theorem compact_mode_boundaries_C7 :
    encodeCompact 63 = [252] ∧ 252 % 4 = 0 ∧
    encodeCompact 64 = [1, 1] ∧ 1 % 4 = 1 ∧
    encodeCompact 16383 = [253, 255] ∧
    encodeCompact 16384 = [2, 0, 1, 0] ∧ 2 % 4 = 2 ∧
    encodeUnsignedCore 5 1 [] = encodeCompact 3 ++ [4, 5, 1] := by
  decide

/-- Claim C8.  The mortality-union bytes are `[0]` for `Immortal` and
`[1, period, phase]` for `Mortal(period, phase)`, and both the signed
extrinsic body and the signing-payload concatenation splice exactly these
bytes between the signature (resp. call) part and the compact nonce. -/
theorem era_union_bytes_C8 :
    Era.encode .Immortal = [0] ∧
    (∀ period phase, Era.encode (.Mortal period phase) = [1, period, phase]) ∧
    (∀ (m f : Nat) (args signer sig : List Nat) (nonce tip : Nat) (era : Era),
      encodeSignedCore m f args signer sig nonce tip era =
        encodeCompact ((signer.length + sig.length + (Era.encode era).length +
            (encodeCompact nonce).length + (encodeCompact tip).length +
            args.length + 5) % 2 ^ 32) ++
          0x84 :: ((0 :: signer) ++ (1 :: sig) ++ Era.encode era ++
            encodeCompact nonce ++ encodeCompact tip ++ (m :: f :: args))) ∧
    (∀ (m f : Nat) (args : List Nat) (nonce tip : Nat) (era : Era)
        (sv tv : Nat) (g b : List Nat),
      signingPayloadConcat m f args nonce tip era sv tv g b =
        (m :: f :: (encodeCompact args.length ++ args)) ++ Era.encode era ++
          encodeCompact nonce ++ encodeCompact tip ++
          toLEBytes 4 sv ++ toLEBytes 4 tv ++ g ++ b) := by
  refine ⟨rfl, fun _ _ => rfl, encodeSignedCore_eq, ?_⟩
  intro m f args nonce tip era sv tv g b
  simp [signingPayloadConcat, Call.encode]

/-- Claim C5.  The signed-extrinsic encoder performs no length check on
the signer input: there is no signer length parameter and the source
unconditionally reads 32 bytes from the pointer.  With a 33-byte signer
buffer the call succeeds (status 0) using only the first 32 bytes, i.e.
it silently truncates instead of failing; with a 31-byte buffer the
32-byte read is out of bounds, so the call has no defined result rather
than an invalid-input-shape error. -/
theorem signed_encoder_no_signer_length_check_C5 :
    encode_signed_extrinsic 5 1 (some []) (some (List.replicate 33 7))
        (some (List.replicate 64 2)) 0 0 0 false 0 0 false false =
      .ret 0 (some (encodeSignedCore 5 1 [] (List.replicate 32 7)
        (List.replicate 64 2) 0 0 .Immortal)) ∧
    encode_signed_extrinsic 5 1 (some []) (some (List.replicate 31 7))
        (some (List.replicate 64 2)) 0 0 0 false 0 0 false false =
      .undefined := by
  decide

/-- Claim C6.  A null genesis-hash pointer is reported with status 1,
but an undersized (31-byte) genesis-hash buffer is not: the source has no
hash length parameter and unconditionally reads 32 bytes from the
pointer, so the call has no defined result instead of an error. -/
theorem payload_no_hash_length_check_C6 :
    make_signing_payload 5 1 (some []) 0 0 0 false 0 0 0 0
        none (some (List.replicate 32 0)) false false = .ret 1 none ∧
    make_signing_payload 5 1 (some []) 0 0 0 false 0 0 0 0
        (some (List.replicate 31 0)) (some (List.replicate 32 0))
        false false = .undefined := by
  decide

/-- Claim C9.  For each of the three exported functions, whenever the
call has a defined result, the status code is 0 exactly when the output
buffer was written through the out-parameters; on every failure path
(null pointer, caught panic) the out-parameters are left unwritten. -/
theorem ffi_out_written_iff_success_C9 :
    ∀ (m f : Nat) (args signer sig gen blk : Option (List Nat))
      (nonce tl th : Nat) (em : Bool) (ep eph sv tv : Nat)
      (opn oln : Bool),
      (∀ c out, encode_unsigned_extrinsic m f args opn oln = .ret c out →
        (c = 0 ↔ out.isSome)) ∧
      (∀ c out, encode_signed_extrinsic m f args signer sig nonce tl th
          em ep eph opn oln = .ret c out → (c = 0 ↔ out.isSome)) ∧
      (∀ c out, make_signing_payload m f args nonce tl th em ep eph sv tv
          gen blk opn oln = .ret c out → (c = 0 ↔ out.isSome)) := by
  intro m f args signer sig gen blk nonce tl th em ep eph sv tv opn oln
  refine ⟨?_, ?_, ?_⟩
  · intro c out h
    unfold encode_unsigned_extrinsic at h
    repeat' split at h
    all_goals (injection h with h1 h2; subst h1; subst h2; simp)
  · intro c out h
    unfold encode_signed_extrinsic at h
    repeat' split at h
    all_goals first
      | (injection h with h1 h2; subst h1; subst h2; simp)
      | injection h
  · intro c out h
    unfold make_signing_payload at h
    repeat' split at h
    all_goals first
      | (injection h with h1 h2; subst h1; subst h2; simp)
      | injection h

/-- Claim C9, witness: a successful call (status 0) with a written
buffer, and a null-argument call (status 1) with nothing written. -/
theorem ffi_out_written_iff_success_C9_witness :
    ((0 : Int) = 0 ↔ (some (encodeUnsignedCore 5 1 [])).isSome) ∧
    ((1 : Int) = 0 ↔ (none : Option (List Nat)).isSome) :=
  ⟨(ffi_out_written_iff_success_C9 5 1 (some []) none none none none
      0 0 0 false 0 0 0 0 false false).1 0
      (some (encodeUnsignedCore 5 1 [])) rfl,
   (ffi_out_written_iff_success_C9 5 1 none none none none none
      0 0 0 false 0 0 0 0 false false).1 1 none rfl⟩

/-- Claim C10.  For 64-bit `tip_high` and `tip_low` the reconstructed
128-bit tip equals `tip_high * 2 ^ 64 + tip_low` exactly (the shift does
not overflow and the bitwise or is a disjoint sum), and both the signed
extrinsic and the signing payload compact-encode exactly that value. -/
theorem tip_reconstruction_C10 :
    ∀ tip_high tip_low : Nat, tip_high < 2 ^ 64 → tip_low < 2 ^ 64 →
      combineTip tip_high tip_low = tip_high * 2 ^ 64 + tip_low ∧
      (∀ (m f : Nat) (args signer sig : List Nat) (nonce : Nat) (era : Era),
        encodeSignedCore m f args signer sig nonce
            (combineTip tip_high tip_low) era =
          encodeSignedCore m f args signer sig nonce
            (tip_high * 2 ^ 64 + tip_low) era) ∧
      (∀ (m f : Nat) (args : List Nat) (nonce : Nat) (era : Era)
          (sv tv : Nat) (g b : List Nat),
        signingPayloadConcat m f args nonce
            (combineTip tip_high tip_low) era sv tv g b =
          signingPayloadConcat m f args nonce
            (tip_high * 2 ^ 64 + tip_low) era sv tv g b) := by
  intro th tl hth htl
  have hc : combineTip th tl = th * 2 ^ 64 + tl := by
    have hsh : th <<< 64 = th * 2 ^ 64 := Nat.shiftLeft_eq th 64
    have hlt : th * 2 ^ 64 < 2 ^ 128 := by
      calc th * 2 ^ 64 ≤ (2 ^ 64 - 1) * 2 ^ 64 :=
            Nat.mul_le_mul_right _ (by omega)
        _ < 2 ^ 128 := by norm_num
    have hor : 2 ^ 64 * th + tl = 2 ^ 64 * th ||| tl :=
      Nat.mul_add_lt_is_or htl th
    rw [combineTip, hsh, Nat.mod_eq_of_lt hlt, Nat.mul_comm th (2 ^ 64),
      ← hor, Nat.mul_comm (2 ^ 64) th]
  exact ⟨hc, fun _ _ _ _ _ _ _ => by rw [hc], fun _ _ _ _ _ _ _ _ _ => by rw [hc]⟩

/-- Claim C10, witness: the theorem applied at `tip_high = 1`,
`tip_low = 2`. -/
theorem tip_reconstruction_C10_witness :
    combineTip 1 2 = 1 * 2 ^ 64 + 2 :=
  (tip_reconstruction_C10 1 2 (by norm_num) (by norm_num)).1

end Sublua
